import Mathlib

/-!
Shallow embedding of the tiered-cache RAG orchestrator in `main1.py` and the
pipeline in `agent.py` of the mine-agent repository.

The L1 cache (`lru_cache_store`, a Python dict) is modelled as an
insertion-ordered association list: Python dicts iterate in insertion order,
updating an existing key keeps its position, and inserting a fresh key appends
at the end.  The L2 cache (`rag_cache.db`, a sqlite table with `query` as
primary key and `INSERT OR REPLACE` writes) is modelled the same way; only
keyed lookup is ever performed on it.  The sqlite medium may be unavailable,
which in Python raises out of `get_from_l2` / `set_to_l2`; this is modelled by
an availability flag `l2ok` on the cache state, with the raised exception
becoming an explicit `storageUnavailable` error value.

`cached_ask` is an `async def` with a single suspension point, the
`await asyncio.to_thread(ask, query)` call.  It is embedded in two atomic
segments (`cached_ask_pre` up to the await, `cached_ask_post` after it), whose
sequential composition is `cached_ask`; an interleaving semantics for
concurrent callers is built from the same two segments further below.
Each run records a trace of externally visible events (L2 reads, pipeline
invocations, cache writes) in source order.
-/

namespace MineAgent

/-- Python `store.get(q)` on an insertion-ordered dict modelled as an
association list: value of the first entry whose key equals `q`. -/
def dictGet : List (String × String) → String → Option String
  | [], _ => none
  | (k, v) :: rest, q => if k = q then some v else dictGet rest q

/-- Python `store[q] = r`: update the existing entry in place (keeping its
position, as Python dicts do), or append a fresh entry at the end. -/
def dictSet : List (String × String) → String → String → List (String × String)
  | [], q, r => [(q, r)]
  | (k, v) :: rest, q, r =>
      if k = q then (k, r) :: rest else (k, v) :: dictSet rest q r

/-- The module-level constant `L1_CACHE_SIZE = 100` in `main1.py`. -/
def L1_CACHE_SIZE : Nat := 100

/-- The body of `set_to_l1`, parameterised by the capacity constant it reads:
if `len(store) >= cap`, pop the first key in iteration order (the earliest
inserted), then perform the dict assignment. -/
def set_to_l1_core (cap : Nat) (store : List (String × String))
    (query response : String) : List (String × String) :=
  let store := if cap ≤ store.length then store.tail else store
  dictSet store query response

/-- The function `set_to_l1` of `main1.py`, acting on the global
`lru_cache_store` at the configured capacity `L1_CACHE_SIZE`. -/
def set_to_l1 (store : List (String × String)) (query response : String) :
    List (String × String) :=
  set_to_l1_core L1_CACHE_SIZE store query response

/-- The function `get_from_l1` of `main1.py`: `lru_cache_store.get(query)`,
a pure read. -/
def get_from_l1 (store : List (String × String)) (query : String) :
    Option String :=
  dictGet store query

/-- One operation against the L1 store, for stating that reads do not
disturb the eviction order. -/
inductive L1Op
  | get (query : String)
  | put (query response : String)

/-- Run a sequence of L1 operations from a starting store.  `get` is
`lru_cache_store.get`, which performs no mutation; `put` is `set_to_l1`. -/
def run_l1 (cap : Nat) (store : List (String × String)) :
    List L1Op → List (String × String)
  | [] => store
  | L1Op.get _ :: rest => run_l1 cap store rest
  | L1Op.put q r :: rest => run_l1 cap (set_to_l1_core cap store q r) rest

/-- Failure of the retrieval or generation capability inside the pipeline
(`ask` in `agent.py` raising). -/
inductive PipelineErr
  | retrievalUnavailable
  | generationUnavailable
  deriving DecidableEq, Repr

/-- An exception escaping `cached_ask`: either a pipeline failure propagated
from `ask`, or the sqlite medium being unavailable (an error raised by
`get_from_l2` / `set_to_l2`). -/
inductive ResolveErr
  | pipe (e : PipelineErr)
  | storageUnavailable
  deriving DecidableEq, Repr

/-- State shared by all callers of `cached_ask`: the global `lru_cache_store`
dict (L1), the sqlite `cache` table (L2), and whether the sqlite medium is
currently reachable. -/
structure CacheState where
  l1 : List (String × String)
  l2 : List (String × String)
  l2ok : Bool
  deriving DecidableEq, Repr

/-- Externally visible events of one `cached_ask` run, in source order. -/
inductive Event
  | l2Read
  | pipelineCall
  | l2Write
  | l1Write
  deriving DecidableEq, Repr

/-- Python truthiness of an optional string, as tested by `if result:` in
`cached_ask`: `None` and the empty string are both falsy. -/
def truthy : Option String → Option String
  | none => none
  | some v => if v = "" then none else some v

/-- The function `get_from_l2` of `main1.py`: a keyed `SELECT` on the sqlite
table, returning the row's value or `None`; raises when the medium is
unavailable. -/
def get_from_l2 (st : CacheState) (query : String) :
    Except Unit (Option String) :=
  if st.l2ok then .ok (dictGet st.l2 query) else .error ()

/-- The function `set_to_l2` of `main1.py`: `INSERT OR REPLACE` keyed on
`query`; raises when the medium is unavailable. -/
def set_to_l2 (st : CacheState) (query response : String) :
    Except Unit CacheState :=
  if st.l2ok then .ok { st with l2 := dictSet st.l2 query response }
  else .error ()

/-- Outcome of the first segment of `cached_ask`: either the call finished
(or raised) without reaching the await, or it is suspended at
`await asyncio.to_thread(ask, query)` with the pipeline's (eventual) result
pending. -/
inductive PreOutcome
  | immediate (out : Except ResolveErr String) (st : CacheState)
      (ev : List Event)
  | suspended (pending : Except PipelineErr String) (st : CacheState)
      (ev : List Event)

/-- First atomic segment of `cached_ask` in `main1.py`, up to its single
suspension point: check L1 (`if result: return result`), then L2
(promoting a truthy hit into L1), then start the pipeline call. -/
def cached_ask_pre (ask : String → Except PipelineErr String) (query : String)
    (st : CacheState) : PreOutcome :=
  match truthy (get_from_l1 st.l1 query) with
  | some v => .immediate (.ok v) st []
  | none =>
    match get_from_l2 st query with
    | .error _ => .immediate (.error .storageUnavailable) st [.l2Read]
    | .ok row =>
      match truthy row with
      | some v =>
          .immediate (.ok v) { st with l1 := set_to_l1 st.l1 query v }
            [.l2Read, .l1Write]
      | none => .suspended (ask query) st [.l2Read, .pipelineCall]

/-- Python `str(result).strip()`: `result` is already a string (the
generation capability returns text), so this is the removal of leading and
trailing whitespace. -/
def pyStrip (s : String) : String :=
  ⟨((s.data.dropWhile Char.isWhitespace).reverse.dropWhile
      Char.isWhitespace).reverse⟩

/-- Second atomic segment of `cached_ask`: the pipeline call has completed.
On an exception it propagates; on success the result is stripped, written to
L2 and then to L1, and returned. -/
def cached_ask_post (query : String) (res : Except PipelineErr String)
    (st : CacheState) : Except ResolveErr String × CacheState × List Event :=
  match res with
  | .error e => (.error (.pipe e), st, [])
  | .ok result =>
    let result_str := pyStrip result
    match set_to_l2 st query result_str with
    | .error _ => (.error .storageUnavailable, st, [])
    | .ok st' =>
        (.ok result_str, { st' with l1 := set_to_l1 st'.l1 query result_str },
          [.l2Write, .l1Write])

/-- The coroutine `cached_ask` of `main1.py` run to completion by a single
caller: the two segments in sequence, with the event traces concatenated. -/
def cached_ask (ask : String → Except PipelineErr String) (query : String)
    (st : CacheState) : Except ResolveErr String × CacheState × List Event :=
  match cached_ask_pre ask query st with
  | .immediate out st' ev => (out, st', ev)
  | .suspended res st' ev =>
      let r := cached_ask_post query res st'
      (r.1, r.2.1, ev ++ r.2.2)

/-- The prompt template of `generate_answer` in `agent.py`, with the query and
the joined context documents interpolated. -/
def rag_prompt (query context : String) : String :=
  "\nYou are an expert mining assistant.\n\nUser question:\n" ++ query ++
    "\n\nRelevant mining documents:\n" ++ context ++
    "\n\nAnswer concisely, factually, and directly.\n"

/-- The function `generate_answer` of `agent.py`: join the context documents
with blank lines, build the prompt and call the generation capability (the
Gemini `generate_content` call) once. -/
def generate_answer (generate : String → Except PipelineErr String)
    (query : String) (context_docs : List String) :
    Except PipelineErr String :=
  generate (rag_prompt query (String.intercalate "\n\n" context_docs))

/-- The function `ask` of `agent.py`: one retrieval-capability call
(`search_faiss`, which invokes the FAISS index once) followed by one
generation-capability call via `generate_answer`.  A raised exception in
either capability propagates. -/
def ask_pipeline (search : String → Except PipelineErr (List String))
    (generate : String → Except PipelineErr String) (query : String) :
    Except PipelineErr String :=
  match search query with
  | .error e => .error e
  | .ok context_docs => generate_answer generate query context_docs

deriving instance DecidableEq for Except

/-- Where one concurrently running `cached_ask` coroutine stands: not yet
scheduled, suspended at the `await` with the pipeline outcome pending, or
returned/raised. -/
inductive Phase
  | ready
  | awaiting (pending : Except PipelineErr String)
  | finished (out : Except ResolveErr String)
  deriving DecidableEq, Repr

/-- One concurrent caller of `cached_ask`: its query and its phase. -/
structure TaskState where
  query : String
  phase : Phase
  deriving DecidableEq, Repr

/-- Run one atomic segment of a task's `cached_ask` coroutine against the
shared cache state.  A `ready` task runs `cached_ask_pre`; an `awaiting` task
runs `cached_ask_post`; a `finished` task does nothing. -/
def stepTask (ask : String → Except PipelineErr String) (cache : CacheState)
    (t : TaskState) : TaskState × CacheState × List Event :=
  match t.phase with
  | .finished _ => (t, cache, [])
  | .ready =>
    match cached_ask_pre ask t.query cache with
    | .immediate out st' ev => ({ t with phase := .finished out }, st', ev)
    | .suspended res st' ev => ({ t with phase := .awaiting res }, st', ev)
  | .awaiting res =>
    let r := cached_ask_post t.query res cache
    ({ t with phase := .finished r.1 }, r.2.1, r.2.2)

/-- Interleaved execution of several `cached_ask` callers on the asyncio
event loop: the schedule names, in order, which task runs its next atomic
segment.  Segments are atomic because the event loop is single-threaded and
`cached_ask` only yields control at its one `await`. -/
def runSchedule (ask : String → Except PipelineErr String) :
    List Nat → List TaskState × CacheState × List Event →
      List TaskState × CacheState × List Event
  | [], acc => acc
  | i :: rest, (tasks, cache, ev) =>
    match tasks[i]? with
    | none => runSchedule ask rest (tasks, cache, ev)
    | some t =>
      let r := stepTask ask cache t
      runSchedule ask rest (tasks.set i r.1, r.2.1, ev ++ r.2.2)

/-- Number of pipeline invocations recorded in a trace. -/
def pipelineCalls (ev : List Event) : Nat :=
  ev.countP (fun e => e = Event.pipelineCall)

/-- One RSS item handed to `analyze_update` inside the `/updates` handler. -/
structure UpdateItem where
  title : String
  link : String
  published : String
  deriving DecidableEq, Repr

/-- One element of the list returned by the `/updates` handler. -/
structure AnalyzedUpdate where
  title : String
  link : String
  published : String
  danger_analysis : String
  deriving DecidableEq, Repr

/-- The article-fetching part of `analyze_update`: `requests.get` plus
HTML-paragraph extraction is a capability returning the page's paragraph
texts, or `none` when it raises.  The body joins the first five paragraphs,
with the two fallback strings of the source. -/
def article_content (fetched : Option (List String)) : String :=
  match fetched with
  | none => "(Could not fetch full article text.)"
  | some paragraphs =>
    if paragraphs.isEmpty then "(No text found.)"
    else String.intercalate " " (paragraphs.take 5)

/-- The f-string prompt built by `analyze_update` from an item's fields and
the fetched content. -/
def analyze_prompt (title published link content : String) : String :=
  "You are a mining safety officer. Analyze the following DGMS update " ++
    "and classify the risk level (High, Medium, Low, or None), and describe " ++
    "the hazard type.\n\n" ++
    "Title: " ++ title ++ "\nPublished: " ++ published ++ "\nLink: " ++ link ++
    "\nContent: " ++ content

/-- Rendering of the exception caught by `except Exception as e` around the
`cached_ask` call in `analyze_update`, standing for Python's `str(e)`. -/
def err_message : ResolveErr → String
  | .pipe .retrievalUnavailable => "RetrievalUnavailable"
  | .pipe .generationUnavailable => "GenerationUnavailable"
  | .storageUnavailable => "StorageUnavailable"

/-- The coroutine `analyze_update` of `main1.py` run to completion: build the
prompt from the item and the fetched content, resolve it through
`cached_ask`, and capture any exception in the item's own output field. -/
def analyze_update (fetch : String → Option (List String))
    (ask : String → Except PipelineErr String) (st : CacheState)
    (item : UpdateItem) : AnalyzedUpdate × CacheState :=
  let content := article_content (fetch item.link)
  let prompt := analyze_prompt item.title item.published item.link content
  let r := cached_ask ask prompt st
  let output :=
    match r.1 with
    | .ok s => s
    | .error e => "⚠️ Error: " ++ err_message e
  ({ title := item.title, link := item.link, published := item.published,
     danger_analysis := output }, r.2.1)

/-- The `asyncio.gather` of the `/updates` handler, with completion order made
explicit: `sched` names, in order, which item's `analyze_update` task runs;
each task's result is stored in the slot of its original index, which is how
`gather` assembles its result list. -/
def run_updates (fetch : String → Option (List String))
    (ask : String → Except PipelineErr String) (items : List UpdateItem) :
    List Nat → List (Option AnalyzedUpdate) × CacheState →
      List (Option AnalyzedUpdate) × CacheState
  | [], acc => acc
  | i :: rest, (slots, st) =>
    match items[i]? with
    | none => run_updates fetch ask items rest (slots, st)
    | some item =>
      let r := analyze_update fetch ask st item
      run_updates fetch ask items rest (slots.set i (some r.1), r.2)

/-- The `/updates` handler `get_dgms_updates`: gather `analyze_update` over
all fetched items under a given completion schedule, starting from empty
result slots, and return the slot list (the gathered, input-ordered
results). -/
def get_dgms_updates (fetch : String → Option (List String))
    (ask : String → Except PipelineErr String) (items : List UpdateItem)
    (sched : List Nat) (st : CacheState) :
    List (Option AnalyzedUpdate) × CacheState :=
  run_updates fetch ask items sched
    (List.replicate items.length none, st)

/-! Basic lemmas about the dict model, the L1 store and `cached_ask`. -/

theorem truthy_eq_some (o : Option String) (v : String)
    (h : truthy o = some v) : o = some v ∧ v ≠ "" := by
  cases o with
  | none => simp [truthy] at h
  | some w =>
    by_cases hw : w = ""
    · simp [truthy, hw] at h
    · simp [truthy, hw] at h
      subst h
      exact ⟨rfl, hw⟩

theorem dictGet_dictSet_self (d : List (String × String)) (q v : String) :
    dictGet (dictSet d q v) q = some v := by
  induction d with
  | nil => simp [dictGet, dictSet]
  | cons p rest ih =>
    obtain ⟨k, w⟩ := p
    by_cases h : k = q <;> simp [dictGet, dictSet, h, ih]

theorem dictGet_dictSet_ne (d : List (String × String)) (q v k : String)
    (h : k ≠ q) : dictGet (dictSet d q v) k = dictGet d k := by
  have hqk : ¬ (q = k) := fun h' => h h'.symm
  induction d with
  | nil => simp [dictGet, dictSet, hqk]
  | cons p rest ih =>
    obtain ⟨k', w⟩ := p
    by_cases h' : k' = q
    · simp [dictGet, dictSet, h', hqk]
    · simp [dictGet, dictSet, h', ih]

theorem dictSet_of_get_none (d : List (String × String)) (q v : String)
    (h : dictGet d q = none) : dictSet d q v = d ++ [(q, v)] := by
  induction d with
  | nil => simp [dictSet]
  | cons p rest ih =>
    obtain ⟨k, w⟩ := p
    by_cases h' : k = q
    · simp [dictGet, h'] at h
    · simp [dictGet, h'] at h
      simp [dictSet, h', ih h]

theorem dictSet_length_of_get_some (d : List (String × String)) (q v w : String)
    (h : dictGet d q = some w) : (dictSet d q v).length = d.length := by
  induction d generalizing w with
  | nil => simp [dictGet] at h
  | cons p rest ih =>
    obtain ⟨k, w'⟩ := p
    by_cases h' : k = q
    · simp [dictSet, h']
    · simp [dictGet, h'] at h
      simp [dictSet, h', ih _ h]

theorem dictGet_eq_none_of_not_mem (d : List (String × String)) (q : String)
    (h : q ∉ d.map Prod.fst) : dictGet d q = none := by
  induction d with
  | nil => rfl
  | cons p rest ih =>
    obtain ⟨k, w⟩ := p
    simp only [List.map_cons, List.mem_cons, not_or] at h
    have hk : ¬ (k = q) := fun h' => h.1 h'.symm
    simp [dictGet, hk, ih h.2]

theorem set_to_l1_core_get_self (cap : Nat) (store : List (String × String))
    (q v : String) : dictGet (set_to_l1_core cap store q v) q = some v := by
  unfold set_to_l1_core
  exact dictGet_dictSet_self _ q v

def puts (kvs : List (String × String)) : List L1Op :=
  kvs.map (fun p => L1Op.put p.1 p.2)

theorem run_l1_append (cap : Nat) (store : List (String × String))
    (a b : List L1Op) :
    run_l1 cap store (a ++ b) = run_l1 cap (run_l1 cap store a) b := by
  induction a generalizing store with
  | nil => simp [run_l1]
  | cons op rest ih =>
    cases op <;> simp [run_l1, ih]

theorem run_l1_puts_fresh (cap : Nat) (kvs store : List (String × String))
    (hlen : store.length + kvs.length ≤ cap)
    (hnodup : (kvs.map Prod.fst).Nodup)
    (hfresh : ∀ k ∈ kvs.map Prod.fst, k ∉ store.map Prod.fst) :
    run_l1 cap store (puts kvs) = store ++ kvs := by
  induction kvs generalizing store with
  | nil => simp [puts, run_l1]
  | cons p rest ih =>
    obtain ⟨q, r⟩ := p
    rw [List.map_cons, List.nodup_cons] at hnodup
    have hq : q ∉ store.map Prod.fst := hfresh q (by simp)
    have hlt : ¬ cap ≤ store.length := by
      simp only [List.length_cons] at hlen
      omega
    have hset : set_to_l1_core cap store q r = store ++ [(q, r)] := by
      unfold set_to_l1_core
      rw [if_neg hlt]
      exact dictSet_of_get_none store q r (dictGet_eq_none_of_not_mem store q hq)
    have hfresh2 : ∀ k ∈ rest.map Prod.fst, k ∉ (store ++ [(q, r)]).map Prod.fst := by
      intro k hk
      simp only [List.map_append, List.mem_append, not_or]
      refine ⟨hfresh k (by simp [hk]), ?_⟩
      simp only [List.map_cons, List.map_nil, List.mem_singleton]
      intro hkq
      exact hnodup.1 (hkq ▸ hk)
    have hlen2 : (store ++ [(q, r)]).length + rest.length ≤ cap := by
      simp only [List.length_append, List.length_cons, List.length_nil] at hlen ⊢
      omega
    have hrest := ih (store ++ [(q, r)]) hlen2 hnodup.2 hfresh2
    simp only [puts, List.map_cons, run_l1, hset]
    have : List.map (fun p => L1Op.put p.1 p.2) rest = puts rest := rfl
    rw [this, hrest]
    simp

theorem run_l1_filter_puts (cap : Nat) (store : List (String × String))
    (ops : List L1Op) :
    run_l1 cap store ops
      = run_l1 cap store (ops.filter (fun op => match op with
          | L1Op.put _ _ => true
          | L1Op.get _ => false)) := by
  induction ops generalizing store with
  | nil => rfl
  | cons op rest ih =>
    cases op <;> simp [run_l1, List.filter, ih]

theorem cached_ask_of_l1_hit (ask : String → Except PipelineErr String)
    (query : String) (st : CacheState) (v : String)
    (h : truthy (get_from_l1 st.l1 query) = some v) :
    cached_ask ask query st = (.ok v, st, []) := by
  simp [cached_ask, cached_ask_pre, h]

theorem cached_ask_of_l2_down (ask : String → Except PipelineErr String)
    (query : String) (st : CacheState)
    (h1 : truthy (get_from_l1 st.l1 query) = none) (h2 : st.l2ok = false) :
    cached_ask ask query st = (.error .storageUnavailable, st, [.l2Read]) := by
  simp [cached_ask, cached_ask_pre, get_from_l2, h1, h2]

theorem cached_ask_of_l2_hit (ask : String → Except PipelineErr String)
    (query : String) (st : CacheState) (v : String)
    (h1 : truthy (get_from_l1 st.l1 query) = none) (h2 : st.l2ok = true)
    (h3 : truthy (dictGet st.l2 query) = some v) :
    cached_ask ask query st =
      (.ok v, { st with l1 := set_to_l1 st.l1 query v },
        [.l2Read, .l1Write]) := by
  simp [cached_ask, cached_ask_pre, get_from_l2, h1, h2, h3]

theorem cached_ask_of_miss_ok (ask : String → Except PipelineErr String)
    (query : String) (st : CacheState) (r : String)
    (h1 : truthy (get_from_l1 st.l1 query) = none) (h2 : st.l2ok = true)
    (h3 : truthy (dictGet st.l2 query) = none) (h4 : ask query = .ok r) :
    cached_ask ask query st =
      (.ok (pyStrip r),
        { l1 := set_to_l1 st.l1 query (pyStrip r),
          l2 := dictSet st.l2 query (pyStrip r), l2ok := st.l2ok },
        [.l2Read, .pipelineCall, .l2Write, .l1Write]) := by
  simp [cached_ask, cached_ask_pre, cached_ask_post, get_from_l2, set_to_l2,
    h1, h2, h3, h4]

theorem cached_ask_of_miss_err (ask : String → Except PipelineErr String)
    (query : String) (st : CacheState) (e : PipelineErr)
    (h1 : truthy (get_from_l1 st.l1 query) = none) (h2 : st.l2ok = true)
    (h3 : truthy (dictGet st.l2 query) = none) (h4 : ask query = .error e) :
    cached_ask ask query st =
      (.error (.pipe e), st, [.l2Read, .pipelineCall]) := by
  simp [cached_ask, cached_ask_pre, cached_ask_post, get_from_l2, h1, h2, h3, h4]

theorem set_to_l1_get_self (store : List (String × String)) (q v : String) :
    dictGet (set_to_l1 store q v) q = some v :=
  set_to_l1_core_get_self L1_CACHE_SIZE store q v

theorem cached_ask_ok_l1 (ask : String → Except PipelineErr String)
    (query : String) (st : CacheState) (v : String) (st2 : CacheState)
    (ev : List Event) (h : cached_ask ask query st = (.ok v, st2, ev)) :
    dictGet st2.l1 query = some v := by
  cases hl1 : truthy (get_from_l1 st.l1 query) with
  | some w =>
    rw [cached_ask_of_l1_hit ask query st w hl1] at h
    simp only [Prod.mk.injEq, Except.ok.injEq] at h
    obtain ⟨hv, hst, _⟩ := h
    obtain ⟨hg, _⟩ := truthy_eq_some _ _ hl1
    rw [← hst, ← hv]
    exact hg
  | none =>
    by_cases hok : st.l2ok
    · cases hrow : truthy (dictGet st.l2 query) with
      | some w =>
        rw [cached_ask_of_l2_hit ask query st w hl1 hok hrow] at h
        simp only [Prod.mk.injEq, Except.ok.injEq] at h
        obtain ⟨hv, hst, _⟩ := h
        rw [← hst, ← hv]
        exact set_to_l1_get_self st.l1 query w
      | none =>
        cases hask : ask query with
        | ok r =>
          rw [cached_ask_of_miss_ok ask query st r hl1 hok hrow hask] at h
          simp only [Prod.mk.injEq, Except.ok.injEq] at h
          obtain ⟨hv, hst, _⟩ := h
          rw [← hst, ← hv]
          exact set_to_l1_get_self st.l1 query (pyStrip r)
        | error e =>
          rw [cached_ask_of_miss_err ask query st e hl1 hok hrow hask] at h
          simp at h
    · rw [cached_ask_of_l2_down ask query st hl1 (by simpa using hok)] at h
      simp at h

theorem truthy_none : truthy none = none := rfl

theorem truthy_some_of_ne (v : String) (h : v ≠ "") :
    truthy (some v) = some v := by
  simp [truthy, h]

/-! Claim theorems. -/

/-- C2 (amended): `cached_ask` consults L1 first and, when the L1 value is
non-empty, returns it immediately with no L2 read, no pipeline call and no
state change; on an L1 miss with a non-empty L2 value it promotes that value
into L1 and returns it; and when a key is present in both tiers with a
non-empty L1 value, the L1 value wins.  (An empty-string cached value is
falsy in Python and is treated as a miss, which is why the non-emptiness
qualifications are needed; see the counterexample.) -/
theorem C2_tier_precedence (ask : String → Except PipelineErr String)
    (st : CacheState) (query v : String) :
    (dictGet st.l1 query = some v → v ≠ "" →
      cached_ask ask query st = (.ok v, st, [])) ∧
    (dictGet st.l1 query = none → st.l2ok = true →
      dictGet st.l2 query = some v → v ≠ "" →
      cached_ask ask query st =
        (.ok v, { st with l1 := set_to_l1 st.l1 query v },
          [.l2Read, .l1Write]) ∧
      dictGet (set_to_l1 st.l1 query v) query = some v) ∧
    (∀ w, dictGet st.l1 query = some v → v ≠ "" →
      dictGet st.l2 query = some w → w ≠ v →
      (cached_ask ask query st).1 = .ok v) := by
  refine ⟨?_, ?_, ?_⟩
  · intro h1 hv
    exact cached_ask_of_l1_hit ask query st v
      (by rw [get_from_l1, h1]; exact truthy_some_of_ne v hv)
  · intro h1 hok h2 hv
    refine ⟨cached_ask_of_l2_hit ask query st v
      (by rw [get_from_l1, h1]; rfl) hok
      (by rw [h2]; exact truthy_some_of_ne v hv), ?_⟩
    exact set_to_l1_get_self st.l1 query v
  · intro w h1 hv _ _
    rw [cached_ask_of_l1_hit ask query st v
      (by rw [get_from_l1, h1]; exact truthy_some_of_ne v hv)]

/-- Witness for C2 at concrete inputs: an L1 hit on `("k" -> "a")` with L2
holding a different value `"b"` returns `"a"` untouched, and an L1 miss with
L2 holding `("k" -> "b")` promotes and returns `"b"`. -/
theorem C2_tier_precedence_witness :
    (cached_ask (fun _ => .ok "z") "k" ⟨[("k", "a")], [("k", "b")], true⟩ =
      (.ok "a", ⟨[("k", "a")], [("k", "b")], true⟩, [])) ∧
    (cached_ask (fun _ => .ok "z") "k" ⟨[], [("k", "b")], true⟩ =
      (.ok "b", ⟨[("k", "b")], [("k", "b")], true⟩,
        [.l2Read, .l1Write])) := by
  constructor
  · exact (C2_tier_precedence (fun _ => .ok "z")
      ⟨[("k", "a")], [("k", "b")], true⟩ "k" "a").1 (by decide) (by decide)
  · exact ((C2_tier_precedence (fun _ => .ok "z")
      ⟨[], [("k", "b")], true⟩ "k" "b").2.1 (by decide) rfl (by decide)
      (by decide)).1

/-- Counterexample to C2 as stated: for the key `"k"` present in both tiers
with different values (L1 holds the empty string, L2 holds `"x"`),
`cached_ask` does not return the L1 value: the empty string is falsy, the L1
entry is skipped, L2 is read and its value `"x"` is returned and promoted. -/
theorem C2_counterexample :
    dictGet ([("k", "")] : List (String × String)) "k" = some "" ∧
    dictGet ([("k", "x")] : List (String × String)) "k" = some "x" ∧
    cached_ask (fun _ => .ok "z") "k" ⟨[("k", "")], [("k", "x")], true⟩ =
      (.ok "x", ⟨[("k", "x")], [("k", "x")], true⟩, [.l2Read, .l1Write]) := by
  decide

/-- C3: for a key absent from both tiers, when the pipeline succeeds
`cached_ask` performs exactly one L2 read, one pipeline call, then the L2
write and then the L1 write (the trace lists events in execution order), and
returns the stripped pipeline result, after which both tiers map the key to
that returned value. -/
theorem C3_write_through (ask : String → Except PipelineErr String)
    (st : CacheState) (query r : String)
    (h1 : dictGet st.l1 query = none) (h2 : dictGet st.l2 query = none)
    (h3 : st.l2ok = true) (h4 : ask query = .ok r) :
    cached_ask ask query st =
      (.ok (pyStrip r),
        ⟨set_to_l1 st.l1 query (pyStrip r), dictSet st.l2 query (pyStrip r), st.l2ok⟩,
        [.l2Read, .pipelineCall, .l2Write, .l1Write]) ∧
    dictGet (set_to_l1 st.l1 query (pyStrip r)) query = some (pyStrip r) ∧
    dictGet (dictSet st.l2 query (pyStrip r)) query = some (pyStrip r) := by
  refine ⟨?_, set_to_l1_get_self st.l1 query (pyStrip r),
    dictGet_dictSet_self st.l2 query (pyStrip r)⟩
  exact cached_ask_of_miss_ok ask query st r
    (by rw [get_from_l1, h1]; rfl) h3 (by rw [h2]; rfl) h4

/-- Witness for C3, the spec's concrete scenario: resolving
`"gas leak risk"` with empty caches and a pipeline answering
`" Risk: High "` returns `"Risk: High"` and leaves both tiers holding
`("gas leak risk" -> "Risk: High")`, with the L2 write traced before the L1
write. -/
theorem C3_write_through_witness :
    cached_ask (fun _ => .ok " Risk: High ") "gas leak risk" ⟨[], [], true⟩ =
      (.ok "Risk: High",
        ⟨[("gas leak risk", "Risk: High")], [("gas leak risk", "Risk: High")],
          true⟩,
        [.l2Read, .pipelineCall, .l2Write, .l1Write]) ∧
    dictGet [("gas leak risk", "Risk: High")] "gas leak risk" =
      some "Risk: High" := by
  have h := C3_write_through (fun _ => .ok " Risk: High ") ⟨[], [], true⟩
    "gas leak risk" " Risk: High " rfl rfl rfl rfl
  exact ⟨h.1, h.2.1⟩

/-- C7: for a key absent from both tiers, when the pipeline raises
(retrieval or generation failure) `cached_ask` propagates that failure to
its caller and the cache state is returned exactly as it was: failures are
never cached. -/
theorem C7_failure_not_cached (ask : String → Except PipelineErr String)
    (st : CacheState) (query : String) (e : PipelineErr)
    (h1 : dictGet st.l1 query = none) (h2 : dictGet st.l2 query = none)
    (h3 : st.l2ok = true) (h4 : ask query = .error e) :
    cached_ask ask query st =
      (.error (.pipe e), st, [.l2Read, .pipelineCall]) :=
  cached_ask_of_miss_err ask query st e
    (by rw [get_from_l1, h1]; rfl) h3 (by rw [h2]; rfl) h4

/-- Witness for C7: a generation failure on the uncached key `"k"`
propagates and leaves the (empty) caches untouched. -/
theorem C7_failure_not_cached_witness :
    cached_ask (fun _ => .error .generationUnavailable) "k" ⟨[], [], true⟩ =
      (.error (.pipe .generationUnavailable), ⟨[], [], true⟩,
        [.l2Read, .pipelineCall]) :=
  C7_failure_not_cached (fun _ => .error .generationUnavailable)
    ⟨[], [], true⟩ "k" .generationUnavailable rfl rfl rfl rfl

/-- C4 (amended): after a first successful `cached_ask` whose returned text
is non-empty, a second call for the same key returns the byte-identical
text, leaves the state unchanged, and records no events at all: no L2 read,
no pipeline call (hence no retrieval- or generation-capability invocation)
and no cache write.  (Non-emptiness is needed because an empty cached string
is falsy and treated as a miss; see the counterexample.) -/
theorem C4_idempotent (ask : String → Except PipelineErr String)
    (query : String) (st st2 : CacheState) (v : String) (ev : List Event)
    (h : cached_ask ask query st = (.ok v, st2, ev)) (hv : v ≠ "") :
    cached_ask ask query st2 = (.ok v, st2, []) := by
  have hl1 : dictGet st2.l1 query = some v :=
    cached_ask_ok_l1 ask query st v st2 ev h
  exact cached_ask_of_l1_hit ask query st2 v
    (by rw [get_from_l1, hl1]; exact truthy_some_of_ne v hv)

/-- Witness for C4: after resolving `"k"` to `"ans"` from empty caches, the
second call returns `"ans"` from L1 with an empty event trace. -/
theorem C4_idempotent_witness :
    cached_ask (fun _ => .ok "ans") "k" ⟨[("k", "ans")], [("k", "ans")], true⟩
      = (.ok "ans", ⟨[("k", "ans")], [("k", "ans")], true⟩, []) :=
  C4_idempotent (fun _ => .ok "ans") "k" ⟨[], [], true⟩
    ⟨[("k", "ans")], [("k", "ans")], true⟩ "ans"
    [.l2Read, .pipelineCall, .l2Write, .l1Write] (by decide) (by decide)

/-- Counterexample to C4 as stated: a pipeline answer that strips to the
empty string.  The first resolve of `"k"` succeeds and returns `""`, but the
second call treats the cached empty strings as misses and invokes the
pipeline (and hence retrieval and generation) again. -/
theorem C4_counterexample :
    (cached_ask (fun _ => .ok " ") "k" ⟨[], [], true⟩).1 = .ok "" ∧
    Event.pipelineCall ∈
      (cached_ask (fun _ => .ok " ") "k"
        (cached_ask (fun _ => .ok " ") "k" ⟨[], [], true⟩).2.1).2.2 := by
  decide

/-- C10: cache lookups treat an empty-string value as absent.  If L1 holds
`""` for the key, the L1 entry is ignored and L2 is read; if both tiers hold
`""`, the full pipeline is re-executed (a pipeline call is traced) and its
fresh stripped answer is returned, ignoring both cached entries. -/
theorem C10_empty_treated_absent (ask : String → Except PipelineErr String)
    (st : CacheState) (query : String) :
    (dictGet st.l1 query = some "" →
      Event.l2Read ∈ (cached_ask ask query st).2.2) ∧
    (dictGet st.l1 query = some "" → dictGet st.l2 query = some "" →
      st.l2ok = true →
      Event.pipelineCall ∈ (cached_ask ask query st).2.2 ∧
      ∀ r, ask query = .ok r →
        (cached_ask ask query st).1 = .ok (pyStrip r)) := by
  constructor
  · intro h1
    have hl1 : truthy (get_from_l1 st.l1 query) = none := by
      rw [get_from_l1, h1]; rfl
    by_cases hok : st.l2ok
    · cases hrow : truthy (dictGet st.l2 query) with
      | some w =>
        rw [cached_ask_of_l2_hit ask query st w hl1 hok hrow]
        simp
      | none =>
        cases hask : ask query with
        | ok r =>
          rw [cached_ask_of_miss_ok ask query st r hl1 hok hrow hask]
          simp
        | error e =>
          rw [cached_ask_of_miss_err ask query st e hl1 hok hrow hask]
          simp
    · rw [cached_ask_of_l2_down ask query st hl1 (by simpa using hok)]
      simp
  · intro h1 h2 hok
    have hl1 : truthy (get_from_l1 st.l1 query) = none := by
      rw [get_from_l1, h1]; rfl
    have hrow : truthy (dictGet st.l2 query) = none := by
      rw [h2]; rfl
    cases hask : ask query with
    | ok r =>
      rw [cached_ask_of_miss_ok ask query st r hl1 hok hrow hask]
      constructor
      · simp
      · intro r' hr'
        cases hr'
        rfl
    | error e =>
      rw [cached_ask_of_miss_err ask query st e hl1 hok hrow hask]
      constructor
      · simp
      · intro r' hr'
        simp at hr'

/-- Witness for C10: with both tiers holding `("k" -> "")`, resolving `"k"`
reads L2, re-runs the pipeline and returns its fresh answer `"fresh"`. -/
theorem C10_empty_treated_absent_witness :
    Event.l2Read ∈
      (cached_ask (fun _ => .ok "fresh") "k"
        ⟨[("k", "")], [("k", "")], true⟩).2.2 ∧
    Event.pipelineCall ∈
      (cached_ask (fun _ => .ok "fresh") "k"
        ⟨[("k", "")], [("k", "")], true⟩).2.2 ∧
    (cached_ask (fun _ => .ok "fresh") "k"
        ⟨[("k", "")], [("k", "")], true⟩).1 = .ok "fresh" := by
  have h := C10_empty_treated_absent (fun _ => .ok "fresh")
    ⟨[("k", "")], [("k", "")], true⟩ "k"
  have h2 := h.2 rfl rfl rfl
  exact ⟨h.1 rfl, h2.1, h2.2 "fresh" rfl⟩

/-- C8 (amended): when the L2 medium is unavailable, a `cached_ask` that
misses L1 surfaces a distinct `storageUnavailable` failure — the condition is
not silently treated as "key absent" — but it does not fall back to the
pipeline: the error propagates to the caller, no pipeline call is traced,
and the cache state is unchanged. -/
theorem C8_storage_unavailable (ask : String → Except PipelineErr String)
    (st : CacheState) (query : String)
    (h1 : dictGet st.l1 query = none) (h2 : st.l2ok = false) :
    cached_ask ask query st = (.error .storageUnavailable, st, [.l2Read]) ∧
    Event.pipelineCall ∉ (cached_ask ask query st).2.2 := by
  have h := cached_ask_of_l2_down ask query st (by rw [get_from_l1, h1]; rfl) h2
  refine ⟨h, ?_⟩
  rw [h]
  simp

/-- Witness for C8: unreachable L2 (`l2ok = false`) and an uncached key
yield the `storageUnavailable` failure with no pipeline invocation. -/
theorem C8_storage_unavailable_witness :
    cached_ask (fun _ => .ok "v") "k" ⟨[], [], false⟩ =
      (.error .storageUnavailable, ⟨[], [], false⟩, [.l2Read]) :=
  (C8_storage_unavailable (fun _ => .ok "v") ⟨[], [], false⟩ "k" rfl rfl).1

/-- Counterexample to C8 as stated: with the L2 medium unavailable and the
pipeline perfectly able to answer `"v"`, `cached_ask` does not fall back to
the pipeline and does not return an answer: it raises `storageUnavailable`
without any pipeline call. -/
theorem C8_counterexample :
    (cached_ask (fun _ => .ok "v") "k" ⟨[], [], false⟩).1 =
      .error .storageUnavailable ∧
    Event.pipelineCall ∉
      (cached_ask (fun _ => .ok "v") "k" ⟨[], [], false⟩).2.2 := by
  decide

theorem set_to_l1_core_eq (cap : Nat) (store : List (String × String))
    (q r : String) :
    set_to_l1_core cap store q r =
      dictSet (if cap ≤ store.length then store.tail else store) q r := rfl

theorem dictSet_length_le (d : List (String × String)) (q r : String) :
    (dictSet d q r).length ≤ d.length + 1 := by
  induction d with
  | nil => simp [dictSet]
  | cons p rest ih =>
    obtain ⟨k, v⟩ := p
    by_cases h : k = q
    · simp [dictSet, h]
    · simp [dictSet, h]
      omega

theorem mem_of_dictGet_some (d : List (String × String)) (q w : String)
    (h : dictGet d q = some w) : q ∈ d.map Prod.fst := by
  induction d with
  | nil => simp [dictGet] at h
  | cons p rest ih =>
    obtain ⟨k, v⟩ := p
    by_cases h' : k = q
    · simp [h']
    · simp [dictGet, h'] at h
      simp [ih h]

/-- C5: capacity and eviction discipline of the L1 store (the source
configures `cap = L1_CACHE_SIZE = 100`): (i) a put never leaves the store
above capacity; (ii) inserting `cap + 1` distinct keys into an empty store
leaves exactly the last `cap` of them in insertion order — the
earliest-inserted key is the single entry evicted, it is no longer
retrievable, and the size is exactly `cap` (FIFO by insertion); (iii) `get`
is a pure read, so interleaving any reads into an operation sequence leaves
the resulting store — and hence the eviction order — unchanged. -/
theorem C5_capacity_fifo (cap : Nat) (hcap : 0 < cap) :
    (∀ store q r, List.length store ≤ cap →
      (set_to_l1_core cap store q r).length ≤ cap) ∧
    (∀ kvs : List (String × String), (kvs.map Prod.fst).Nodup →
      kvs.length = cap + 1 →
      run_l1 cap [] (puts kvs) = kvs.tail ∧
      (run_l1 cap [] (puts kvs)).length = cap ∧
      ∀ k₀ v₀ rest, kvs = (k₀, v₀) :: rest →
        dictGet (run_l1 cap [] (puts kvs)) k₀ = none) ∧
    (∀ store ops, run_l1 cap store ops =
      run_l1 cap store (ops.filter (fun op => match op with
        | L1Op.put _ _ => true
        | L1Op.get _ => false))) := by
  refine ⟨?_, ?_, ?_⟩
  · intro store q r hlen
    rw [set_to_l1_core_eq]
    by_cases h : cap ≤ store.length
    · rw [if_pos h]
      have h1 : store.tail.length = store.length - 1 := by simp
      have := dictSet_length_le store.tail q r
      omega
    · rw [if_neg h]
      have := dictSet_length_le store q r
      omega
  · intro kvs hnodup hlen
    have hsplit : kvs.take cap ++ kvs.drop cap = kvs := List.take_append_drop cap kvs
    have hdroplen : (kvs.drop cap).length = 1 := by
      rw [List.length_drop, hlen]
      omega
    obtain ⟨p, hp⟩ := List.length_eq_one.mp hdroplen
    have htakelen : (kvs.take cap).length = cap := by
      rw [List.length_take, hlen]
      omega
    have hmapsplit : (kvs.take cap).map Prod.fst ++ [p.1] = kvs.map Prod.fst := by
      conv_rhs => rw [← hsplit, hp]
      simp
    have hnodup2 : ((kvs.take cap).map Prod.fst ++ [p.1]).Nodup := by
      rw [hmapsplit]
      exact hnodup
    have hnoduptake : ((kvs.take cap).map Prod.fst).Nodup :=
      (List.nodup_append.mp hnodup2).1
    have hpfresh : p.1 ∉ (kvs.take cap).map Prod.fst := by
      intro hmem
      have := (List.nodup_append.mp hnodup2).2.2
      exact this hmem (by simp)
    have hrun1 : run_l1 cap [] (puts (kvs.take cap)) = kvs.take cap := by
      have := run_l1_puts_fresh cap (kvs.take cap) []
        (by simp [htakelen]) hnoduptake (by simp)
      simpa using this
    have htake_ne : kvs.take cap ≠ [] := by
      intro h
      rw [h] at htakelen
      simp at htakelen
      omega
    have hfull : run_l1 cap [] (puts kvs) = kvs.tail := by
      rw [← hsplit, hp]
      have : puts (kvs.take cap ++ [p]) = puts (kvs.take cap) ++ [L1Op.put p.1 p.2] := by
        simp [puts]
      rw [this, run_l1_append, hrun1]
      show set_to_l1_core cap (kvs.take cap) p.1 p.2 = (kvs.take cap ++ [p]).tail
      unfold set_to_l1_core
      rw [if_pos (le_of_eq htakelen.symm)]
      have hfresh2 : p.1 ∉ ((kvs.take cap).tail).map Prod.fst := by
        intro hmem
        rw [List.map_tail] at hmem
        exact hpfresh (List.mem_of_mem_tail hmem)
      rw [dictSet_of_get_none _ _ _ (dictGet_eq_none_of_not_mem _ _ hfresh2)]
      rw [List.tail_append_of_ne_nil htake_ne]
    refine ⟨hfull, ?_, ?_⟩
    · rw [hfull, List.length_tail, hlen]
      omega
    · intro k₀ v₀ rest hkvs
      rw [hfull, hkvs]
      have hk : k₀ ∉ rest.map Prod.fst := by
        rw [hkvs, List.map_cons, List.nodup_cons] at hnodup
        exact hnodup.1
      exact dictGet_eq_none_of_not_mem _ _ hk
  · intro store ops
    induction ops generalizing store with
    | nil => rfl
    | cons op rest ih =>
      cases op <;> simp [run_l1, List.filter, ih]

/-- Witness for C5 at `cap = 2`: inserting the three distinct keys
`a, b, c` into an empty store of capacity 2 evicts exactly `a`, leaving
`[(b, 2), (c, 3)]` of size 2, and a `get` interleaved between puts does not
change the outcome. -/
theorem C5_capacity_fifo_witness :
    run_l1 2 [] (puts [("a", "1"), ("b", "2"), ("c", "3")]) =
      [("b", "2"), ("c", "3")] ∧
    dictGet (run_l1 2 [] (puts [("a", "1"), ("b", "2"), ("c", "3")])) "a" =
      none ∧
    run_l1 2 [] [L1Op.put "a" "1", L1Op.get "a", L1Op.put "b" "2"] =
      run_l1 2 [] [L1Op.put "a" "1", L1Op.put "b" "2"] := by
  have h := C5_capacity_fifo 2 (by decide)
  have h2 := h.2.1 [("a", "1"), ("b", "2"), ("c", "3")] (by decide) (by decide)
  refine ⟨h2.1, h2.2.2 "a" "1" [("b", "2"), ("c", "3")] rfl, ?_⟩
  have h3 := h.2.2 [] [L1Op.put "a" "1", L1Op.get "a", L1Op.put "b" "2"]
  simpa [List.filter] using h3

/-- The L1 store filled to its configured capacity with the 100 keys
`"0"`, `"1"`, ..., `"99"` in insertion order. -/
def l1_full_store : List (String × String) :=
  (List.range 100).map (fun i => (toString i, "v"))

/-- C6 (amended): `set_to_l1` evicts based on occupancy alone, not on
whether the inserted key is new: below capacity, a put on a present key
overwrites it in place, leaves the size unchanged and touches no other
entry; at capacity, a put first evicts the earliest-inserted entry even when
the inserted key is already present, so the overwrite also removes the
oldest entry and shrinks the store. -/
theorem C6_eviction_on_overwrite (cap : Nat)
    (store : List (String × String)) (q r w : String) :
    (store.length < cap → dictGet store q = some w →
      set_to_l1_core cap store q r = dictSet store q r ∧
      (set_to_l1_core cap store q r).length = store.length ∧
      dictGet (set_to_l1_core cap store q r) q = some r ∧
      ∀ k, k ≠ q →
        dictGet (set_to_l1_core cap store q r) k = dictGet store k) ∧
    (cap ≤ store.length →
      set_to_l1_core cap store q r = dictSet store.tail q r) ∧
    (∀ k₀ v₀ rest, store = (k₀, v₀) :: rest → cap ≤ store.length →
      k₀ ∉ rest.map Prod.fst → dictGet rest q = some w →
      (set_to_l1_core cap store q r).length = rest.length ∧
      dictGet (set_to_l1_core cap store q r) k₀ = none ∧
      dictGet (set_to_l1_core cap store q r) q = some r) := by
  refine ⟨?_, ?_, ?_⟩
  · intro hlt hget
    have heq : set_to_l1_core cap store q r = dictSet store q r := by
      unfold set_to_l1_core
      rw [if_neg (by omega)]
    refine ⟨heq, ?_, ?_, ?_⟩
    · rw [heq]
      exact dictSet_length_of_get_some store q r w hget
    · rw [heq]
      exact dictGet_dictSet_self store q r
    · intro k hk
      rw [heq]
      exact dictGet_dictSet_ne store q r k hk
  · intro hge
    unfold set_to_l1_core
    rw [if_pos hge]
  · intro k₀ v₀ rest hstore hge hk₀ hget
    have heq : set_to_l1_core cap store q r = dictSet rest q r := by
      unfold set_to_l1_core
      rw [if_pos hge, hstore]
      rfl
    have hk₀q : k₀ ≠ q := by
      intro h
      exact hk₀ (h ▸ mem_of_dictGet_some rest q w hget)
    refine ⟨?_, ?_, ?_⟩
    · rw [heq, dictSet_length_of_get_some rest q r w hget]
    · rw [heq, dictGet_dictSet_ne rest q r k₀ hk₀q]
      exact dictGet_eq_none_of_not_mem rest k₀ hk₀
    · rw [heq]
      exact dictGet_dictSet_self rest q r

/-- Witness for C6 at `cap = 2` with the full store `[(a,1),(b,2)]`: putting
a new value for the present key `b` evicts `a` and shrinks the store to
`[(b, 9)]`, while the same put below capacity (cap = 3) overwrites in place
with no eviction. -/
theorem C6_eviction_on_overwrite_witness :
    (set_to_l1_core 2 [("a", "1"), ("b", "2")] "b" "9").length = 1 ∧
    dictGet (set_to_l1_core 2 [("a", "1"), ("b", "2")] "b" "9") "a" = none ∧
    dictGet (set_to_l1_core 2 [("a", "1"), ("b", "2")] "b" "9") "b" =
      some "9" ∧
    set_to_l1_core 3 [("a", "1"), ("b", "2")] "b" "9" =
      [("a", "1"), ("b", "9")] := by
  have h := C6_eviction_on_overwrite 2 [("a", "1"), ("b", "2")] "b" "9" "2"
  have h3 := h.2.2 "a" "1" [("b", "2")] rfl (by decide) (by decide) (by decide)
  have h1 := (C6_eviction_on_overwrite 3 [("a", "1"), ("b", "2")] "b" "9"
    "2").1 (by decide) (by decide)
  refine ⟨h3.1, h3.2.1, h3.2.2, ?_⟩
  rw [h1.1]
  rfl

/-- Counterexample to C6 as stated, on `set_to_l1` itself (capacity
`L1_CACHE_SIZE = 100`): with the store at capacity holding the keys
`"0"` ... `"99"` and `"50"` present, `set_to_l1 store "50" "w"` does evict
an entry — the earliest-inserted key `"0"` disappears and the size drops to
99 — contradicting "overwrites that key's value and evicts no other entry,
even when the store is at capacity". -/
theorem C6_counterexample :
    dictGet l1_full_store "50" = some "v" ∧
    l1_full_store.length = L1_CACHE_SIZE ∧
    (set_to_l1 l1_full_store "50" "w").length = 99 ∧
    dictGet (set_to_l1 l1_full_store "50" "w") "0" = none ∧
    dictGet (set_to_l1 l1_full_store "50" "w") "50" = some "w" := by
  decide

/-! Lemmas for the interleaving semantics of concurrent `cached_ask`
callers. -/

theorem getElem?_append_len (a : List TaskState) (t : TaskState)
    (rest : List TaskState) : (a ++ t :: rest)[a.length]? = some t := by
  induction a with
  | nil => simp
  | cons y ys ih => simpa using ih

theorem set_append_len (a : List TaskState) (t x : TaskState)
    (rest : List TaskState) :
    (a ++ t :: rest).set a.length x = a ++ x :: rest := by
  induction a with
  | nil => rfl
  | cons y ys ih => simp [ih]

theorem runSchedule_cons_step (ask : String → Except PipelineErr String)
    (i : Nat) (sched : List Nat) (tasks : List TaskState) (cache : CacheState)
    (ev : List Event) (t t2 : TaskState) (cache2 : CacheState)
    (ev2 : List Event) (h : tasks[i]? = some t)
    (h2 : stepTask ask cache t = (t2, cache2, ev2)) :
    runSchedule ask (i :: sched) (tasks, cache, ev) =
      runSchedule ask sched (tasks.set i t2, cache2, ev ++ ev2) := by
  simp [runSchedule, h, h2]

theorem runSchedule_append (ask : String → Except PipelineErr String)
    (s1 s2 : List Nat) (acc : List TaskState × CacheState × List Event) :
    runSchedule ask (s1 ++ s2) acc =
      runSchedule ask s2 (runSchedule ask s1 acc) := by
  induction s1 generalizing acc with
  | nil => rfl
  | cons i rest ih =>
    obtain ⟨tasks, cache, ev⟩ := acc
    cases h : tasks[i]? with
    | none => simp [runSchedule, h, ih]
    | some t => simp [runSchedule, h, ih]

/-- Trace produced by the pre-await segments of `n` same-key cache-missing
callers. -/
def preEvents : Nat → List Event
  | 0 => []
  | n + 1 => [Event.l2Read, Event.pipelineCall] ++ preEvents n

/-- Trace produced by the post-await segments of `n` same-key callers whose
pipeline call succeeded. -/
def postEvents : Nat → List Event
  | 0 => []
  | n + 1 => [Event.l2Write, Event.l1Write] ++ postEvents n

theorem pipelineCalls_preEvents (n : Nat) :
    pipelineCalls (preEvents n) = n := by
  induction n with
  | zero => rfl
  | succ m ih =>
    show pipelineCalls ([Event.l2Read, Event.pipelineCall] ++ preEvents m) = m + 1
    rw [pipelineCalls, List.countP_append]
    rw [pipelineCalls] at ih
    rw [ih]
    have hc : List.countP (fun e => decide (e = Event.pipelineCall))
        [Event.l2Read, Event.pipelineCall] = 1 := by decide
    omega

theorem pipelineCalls_postEvents (n : Nat) :
    pipelineCalls (postEvents n) = 0 := by
  induction n with
  | zero => rfl
  | succ m ih =>
    show pipelineCalls ([Event.l2Write, Event.l1Write] ++ postEvents m) = 0
    rw [pipelineCalls, List.countP_append]
    rw [pipelineCalls] at ih
    rw [ih]
    have hc : List.countP (fun e => decide (e = Event.pipelineCall))
        [Event.l2Write, Event.l1Write] = 0 := by decide
    omega

theorem runSchedule_pre_all (ask : String → Except PipelineErr String)
    (query : String) (cache : CacheState) (h1 : dictGet cache.l1 query = none)
    (h2 : dictGet cache.l2 query = none) (hok : cache.l2ok = true) :
    ∀ (b a : List TaskState) (ev : List Event),
      (∀ t ∈ b, t = ⟨query, .ready⟩) →
      runSchedule ask (List.range' a.length b.length) (a ++ b, cache, ev) =
        (a ++ b.map (fun _ => ⟨query, .awaiting (ask query)⟩), cache,
          ev ++ preEvents b.length) := by
  have hpre : cached_ask_pre ask query cache =
      .suspended (ask query) cache [.l2Read, .pipelineCall] := by
    simp [cached_ask_pre, get_from_l1, get_from_l2, truthy, h1, h2, hok]
  intro b
  induction b with
  | nil =>
    intro a ev _
    simp [List.range', runSchedule, preEvents]
  | cons t rest ih =>
    intro a ev hb
    have ht : t = ⟨query, .ready⟩ := hb t (by simp)
    have hstep : stepTask ask cache t =
        (⟨query, .awaiting (ask query)⟩, cache, [.l2Read, .pipelineCall]) := by
      rw [ht]
      simp [stepTask, hpre]
    have hcons : List.range' a.length (t :: rest).length =
        a.length :: List.range' (a.length + 1) rest.length := rfl
    rw [hcons,
      runSchedule_cons_step ask a.length _ _ cache ev t _ _ _
        (getElem?_append_len a t rest) hstep,
      set_append_len]
    have hnext := ih (a ++ [⟨query, .awaiting (ask query)⟩])
      (ev ++ [Event.l2Read, Event.pipelineCall])
      (fun u hu => hb u (by simp [hu]))
    rw [show (a ++ [(⟨query, .awaiting (ask query)⟩ : TaskState)]).length
        = a.length + 1 from by simp] at hnext
    simp only [List.append_assoc, List.singleton_append] at hnext
    rw [hnext]
    show _ = (a ++ (⟨query, .awaiting (ask query)⟩ :: rest.map _), cache,
      ev ++ ([Event.l2Read, Event.pipelineCall] ++ preEvents rest.length))
    simp

theorem runSchedule_post_all (ask : String → Except PipelineErr String)
    (query v : String) :
    ∀ (b a : List TaskState) (cache : CacheState) (ev : List Event),
      cache.l2ok = true →
      (∀ t ∈ b, t = ⟨query, .awaiting (.ok v)⟩) →
      ∃ cache2 : CacheState,
        runSchedule ask (List.range' a.length b.length) (a ++ b, cache, ev) =
          (a ++ b.map (fun _ => ⟨query, .finished (.ok (pyStrip v))⟩), cache2,
            ev ++ postEvents b.length) ∧ cache2.l2ok = true := by
  intro b
  induction b with
  | nil =>
    intro a cache ev hok _
    exact ⟨cache, by simp [List.range', runSchedule, postEvents], hok⟩
  | cons t rest ih =>
    intro a cache ev hok hb
    have ht : t = ⟨query, .awaiting (.ok v)⟩ := hb t (by simp)
    have hstep : stepTask ask cache t =
        (⟨query, .finished (.ok (pyStrip v))⟩,
          ⟨set_to_l1 cache.l1 query (pyStrip v),
            dictSet cache.l2 query (pyStrip v), cache.l2ok⟩,
          [Event.l2Write, Event.l1Write]) := by
      rw [ht]
      simp [stepTask, cached_ask_post, set_to_l2, hok]
    have hcons : List.range' a.length (t :: rest).length =
        a.length :: List.range' (a.length + 1) rest.length := rfl
    rw [hcons,
      runSchedule_cons_step ask a.length _ _ cache ev t _ _ _
        (getElem?_append_len a t rest) hstep,
      set_append_len]
    obtain ⟨cache2, hrun, hok2⟩ := ih
      (a ++ [⟨query, .finished (.ok (pyStrip v))⟩])
      ⟨set_to_l1 cache.l1 query (pyStrip v),
        dictSet cache.l2 query (pyStrip v), cache.l2ok⟩
      (ev ++ [Event.l2Write, Event.l1Write]) (by simpa using hok)
      (fun u hu => hb u (by simp [hu]))
    rw [show (a ++ [(⟨query, .finished (.ok (pyStrip v))⟩ : TaskState)]).length
        = a.length + 1 from by simp] at hrun
    simp only [List.append_assoc, List.singleton_append] at hrun
    refine ⟨cache2, ?_, hok2⟩
    rw [hrun]
    show _ = (a ++ (⟨query, .finished (.ok (pyStrip v))⟩ :: rest.map _), cache2,
      ev ++ ([Event.l2Write, Event.l1Write] ++ postEvents rest.length))
    simp

/-- C1 (amended): `cached_ask` has no single-flight guard.  For any number
`n` of concurrent callers of the same key that is missing from both tiers,
the interleaving in which every caller reaches its cache check before any
pipeline call completes produces `n` separate pipeline invocations — one per
caller, not one per key.  Each caller still returns the same value, the
stripped pipeline answer, because the modelled pipeline is deterministic.
Only callers arriving after some execution has completed are served from
cache. -/
theorem C1_no_single_flight (ask : String → Except PipelineErr String)
    (query v : String) (st : CacheState) (n : Nat)
    (h1 : dictGet st.l1 query = none) (h2 : dictGet st.l2 query = none)
    (hok : st.l2ok = true) (hv : ask query = .ok v) :
    ∃ cache2 : CacheState,
      runSchedule ask (List.range n ++ List.range n)
          (List.replicate n ⟨query, .ready⟩, st, []) =
        (List.replicate n ⟨query, .finished (.ok (pyStrip v))⟩, cache2,
          preEvents n ++ postEvents n) ∧
      pipelineCalls (preEvents n ++ postEvents n) = n := by
  have hrange : List.range n = List.range' 0 n := List.range_eq_range' n
  have hpre := runSchedule_pre_all ask query st h1 h2 hok
    (List.replicate n ⟨query, .ready⟩) [] [] (fun t ht => by
      simpa using List.eq_of_mem_replicate ht)
  simp only [List.nil_append, List.length_nil, List.length_replicate] at hpre
  have hmap1 : (List.replicate n (⟨query, .ready⟩ : TaskState)).map
      (fun _ => (⟨query, .awaiting (ask query)⟩ : TaskState)) =
      List.replicate n ⟨query, .awaiting (ask query)⟩ := by
    simp
  rw [hmap1] at hpre
  obtain ⟨cache2, hpost, hok2⟩ := runSchedule_post_all ask query v
    (List.replicate n ⟨query, .awaiting (.ok v)⟩) [] st (preEvents n)
    hok (fun t ht => by simpa using List.eq_of_mem_replicate ht)
  simp only [List.nil_append, List.length_nil, List.length_replicate] at hpost
  have hmap2 : (List.replicate n
      (⟨query, .awaiting (.ok v)⟩ : TaskState)).map
      (fun _ => (⟨query, .finished (.ok (pyStrip v))⟩ : TaskState)) =
      List.replicate n ⟨query, .finished (.ok (pyStrip v))⟩ := by
    simp
  rw [hmap2] at hpost
  rw [hv] at hpre
  refine ⟨cache2, ?_, ?_⟩
  · rw [runSchedule_append, hrange, hpre, hpost]
  · have ha := pipelineCalls_preEvents n
    have hb := pipelineCalls_postEvents n
    rw [pipelineCalls] at ha hb
    rw [pipelineCalls, List.countP_append, ha, hb]
    omega

/-- Witness for C1 at `n = 10`: ten concurrent resolves of the uncached key
`"k"` with a pipeline answering `" v "` produce ten pipeline invocations and
ten callers all finishing with the same stripped value `"v"`. -/
theorem C1_no_single_flight_witness :
    ∃ cache2 : CacheState,
      runSchedule (fun _ => .ok " v ") (List.range 10 ++ List.range 10)
          (List.replicate 10 ⟨"k", .ready⟩, ⟨[], [], true⟩, []) =
        (List.replicate 10 ⟨"k", .finished (.ok "v")⟩, cache2,
          preEvents 10 ++ postEvents 10) ∧
      pipelineCalls (preEvents 10 ++ postEvents 10) = 10 :=
  C1_no_single_flight (fun _ => .ok " v ") "k" " v " ⟨[], [], true⟩ 10
    rfl rfl rfl rfl

/-- Counterexample to C1 as stated: 10 concurrent resolves of the uncached
key `"k"`, each reaching its cache check before any pipeline call completes,
cause 10 pipeline invocations — the claim requires exactly one — and already
after the first two pre-await segments two pipeline executions for `"k"` are
simultaneously outstanding, where the claim allows at most one in flight. -/
theorem C1_counterexample :
    pipelineCalls (runSchedule (fun _ => .ok "v")
        (List.range 10 ++ List.range 10)
        (List.replicate 10 ⟨"k", .ready⟩, ⟨[], [], true⟩, [])).2.2 = 10 ∧
    (runSchedule (fun _ => .ok "v") [0, 1]
        (List.replicate 10 ⟨"k", .ready⟩, ⟨[], [], true⟩, [])).1.take 2 =
      List.replicate 2 ⟨"k", .awaiting (.ok "v")⟩ := by
  decide

/-! Lemmas for the fan-out of the `/updates` handler. -/

/-- A gathered result at slot `i` carries the identity (title, link,
published date) of the `i`-th input item. -/
def resultMatches (items : List UpdateItem) (i : Nat) (r : AnalyzedUpdate) :
    Prop :=
  ∃ item, items[i]? = some item ∧ r.title = item.title ∧
    r.link = item.link ∧ r.published = item.published

theorem run_updates_invariant (fetch : String → Option (List String))
    (ask : String → Except PipelineErr String) (items : List UpdateItem) :
    ∀ (sched : List Nat) (slots : List (Option AnalyzedUpdate))
      (st : CacheState),
      slots.length = items.length →
      (∀ (i : Nat) (r : AnalyzedUpdate), slots[i]? = some (some r) →
        resultMatches items i r) →
      (run_updates fetch ask items sched (slots, st)).1.length =
          items.length ∧
        (∀ (i : Nat) (r : AnalyzedUpdate),
          (run_updates fetch ask items sched (slots, st)).1[i]? =
            some (some r) → resultMatches items i r) ∧
        (∀ (i : Nat) (r : AnalyzedUpdate), slots[i]? = some (some r) →
          ∃ r2 : AnalyzedUpdate,
            (run_updates fetch ask items sched (slots, st)).1[i]? =
              some (some r2)) ∧
        (∀ i : Nat, i < items.length → i ∈ sched →
          ∃ r2 : AnalyzedUpdate,
            (run_updates fetch ask items sched (slots, st)).1[i]? =
              some (some r2)) := by
  intro sched
  induction sched with
  | nil =>
    intro slots st hlen hmeta
    refine ⟨hlen, hmeta, fun i r h => ⟨r, h⟩, fun i _ h => absurd h (by simp)⟩
  | cons j rest ih =>
    intro slots st hlen hmeta
    cases hitem : items[j]? with
    | none =>
      have hrun : run_updates fetch ask items (j :: rest) (slots, st) =
          run_updates fetch ask items rest (slots, st) := by
        simp [run_updates, hitem]
      have hj : items.length ≤ j := by
        by_contra h
        rw [List.getElem?_eq_getElem (by omega)] at hitem
        simp at hitem
      obtain ⟨ha, hb, hc, hd⟩ := ih slots st hlen hmeta
      rw [hrun]
      refine ⟨ha, hb, hc, ?_⟩
      intro i hi hmem
      rcases List.mem_cons.mp hmem with hij | hmem2
      · omega
      · exact hd i hi hmem2
    | some item =>
      have hj : j < items.length := by
        by_contra h
        rw [List.getElem?_eq_none (by omega)] at hitem
        simp at hitem
      set r0 := (analyze_update fetch ask st item).1 with hr0
      set slots2 := slots.set j (some r0) with hslots2
      have hrun : run_updates fetch ask items (j :: rest) (slots, st) =
          run_updates fetch ask items rest
            (slots2, (analyze_update fetch ask st item).2) := by
        simp [run_updates, hitem, hslots2, hr0]
      have hlen2 : slots2.length = items.length := by
        simp [hslots2, hlen]
      have hr0meta : resultMatches items j r0 := by
        refine ⟨item, hitem, ?_, ?_, ?_⟩ <;> rfl
      have hmeta2 : ∀ i r, slots2[i]? = some (some r) →
          resultMatches items i r := by
        intro i r h
        by_cases hij : i = j
        · subst hij
          rw [hslots2, List.getElem?_set_eq_of_lt _ (by omega)] at h
          cases h
          exact hr0meta
        · rw [hslots2, List.getElem?_set_ne (fun h' => hij h'.symm)] at h
          exact hmeta i r h
      obtain ⟨ha, hb, hc, hd⟩ := ih slots2
        (analyze_update fetch ask st item).2 hlen2 hmeta2
      rw [hrun]
      refine ⟨ha, hb, ?_, ?_⟩
      · intro i r h
        by_cases hij : i = j
        · subst hij
          exact hc i r0 (by
            rw [hslots2, List.getElem?_set_eq_of_lt _ (by omega)])
        · exact hc i r (by
            rw [hslots2, List.getElem?_set_ne (fun h' => hij h'.symm)]
            exact h)
      · intro i hi hmem
        rcases List.mem_cons.mp hmem with hij | hmem2
        · subst hij
          exact hc i r0 (by
            rw [hslots2, List.getElem?_set_eq_of_lt _ (by omega)])
        · exact hd i hi hmem2

/-- C9: the `/updates` fan-out returns exactly one result per work item in
the original input order, for every completion schedule that runs each
item's task: the gathered list has one filled slot per item, and the result
in slot `i` carries the identity of input item `i` regardless of the order
in which tasks completed.  Per-item failures are captured inside the item's
own `danger_analysis` field by `analyze_update`'s exception handler, so
every slot is filled even when some resolutions fail (the witness
instantiates the spec's three-item scenario with item 2 failing). -/
theorem C9_fanout_order (fetch : String → Option (List String))
    (ask : String → Except PipelineErr String) (items : List UpdateItem)
    (sched : List Nat) (st : CacheState)
    (hsched : ∀ i, i < items.length → i ∈ sched) :
    (get_dgms_updates fetch ask items sched st).1.length = items.length ∧
    ∀ i : Nat, i < items.length → ∃ r : AnalyzedUpdate,
      (get_dgms_updates fetch ask items sched st).1[i]? = some (some r) ∧
      resultMatches items i r := by
  have hbase : ∀ (i : Nat) (r : AnalyzedUpdate),
      (List.replicate items.length (none : Option AnalyzedUpdate))[i]? =
        some (some r) → resultMatches items i r := by
    intro i r h
    rcases lt_or_ge i items.length with hi | hi
    · rw [List.getElem?_eq_getElem (by simpa using hi)] at h
      simp at h
    · rw [List.getElem?_eq_none (by simpa using hi)] at h
      simp at h
  obtain ⟨ha, hb, _, hd⟩ := run_updates_invariant fetch ask items sched
    (List.replicate items.length none) st (by simp) hbase
  refine ⟨ha, ?_⟩
  intro i hi
  obtain ⟨r, hr⟩ := hd i hi (hsched i hi)
  exact ⟨r, hr, hb i r hr⟩

/-- Article fetcher for the C9 scenario: every fetch raises, so
`analyze_update` falls back to its fixed no-article content string. -/
def c9_fetch : String → Option (List String) := fun _ => none

/-- The derived prompt of the second work item in the C9 scenario. -/
def c9_prompt2 : String :=
  analyze_prompt "t2" "p2" "l2" "(Could not fetch full article text.)"

/-- Generation capability for the C9 scenario: fails with
`GenerationUnavailable` exactly on item 2's derived prompt. -/
def c9_ask : String → Except PipelineErr String := fun q =>
  if q = c9_prompt2 then .error .generationUnavailable else .ok "ok"

/-- The three work items of the C9 scenario. -/
def c9_items : List UpdateItem :=
  [⟨"t1", "l1", "p1"⟩, ⟨"t2", "l2", "p2"⟩, ⟨"t3", "l3", "p3"⟩]

set_option maxRecDepth 20000 in
/-- Witness for C9, the spec's partial-failure scenario: three work items
resolved under completion order 3-1-2, with item 2's prompt triggering a
simulated generation failure, yield three results in original input order —
items 1 and 3 successful and item 2 carrying the failure in its own
analysis field. -/
theorem C9_fanout_order_witness :
    ((get_dgms_updates c9_fetch c9_ask c9_items [2, 0, 1]
        ⟨[], [], true⟩).1.length = c9_items.length ∧
      ∀ i : Nat, i < c9_items.length → ∃ r : AnalyzedUpdate,
        (get_dgms_updates c9_fetch c9_ask c9_items [2, 0, 1]
          ⟨[], [], true⟩).1[i]? = some (some r) ∧
        resultMatches c9_items i r) ∧
    (get_dgms_updates c9_fetch c9_ask c9_items [2, 0, 1] ⟨[], [], true⟩).1 =
      [some ⟨"t1", "l1", "p1", "ok"⟩,
        some ⟨"t2", "l2", "p2", "⚠️ Error: GenerationUnavailable"⟩,
        some ⟨"t3", "l3", "p3", "ok"⟩] :=
  ⟨C9_fanout_order c9_fetch c9_ask c9_items [2, 0, 1] ⟨[], [], true⟩
    (by decide), by decide⟩

end MineAgent
